import Mathlib

/-!
# Verification of the WQB expression validator

This file gives a shallow embedding, in Lean 4, of the core of the
`WQB_Expression_Validator` Python repository (primarily
`wqb_validator/validator.py`) and proves or refutes a fixed list of
specification claims about it.

Conventions used throughout:

* Python strings are `String`; character-level scanning is done on `List Char`
  (`String.data`), with small helper functions that mirror the behaviour of the
  Python string methods and of the concrete regular expressions appearing in
  the source.
* Python dictionaries keyed by strings are association lists
  (`List (String × _)`) queried with `List.lookup`.
* Mutable validator objects (`self.errors` …) become explicit state records
  threaded through the functions that the source mutates.
* Computations of the source that no claim depends on (the per-line character
  scan, the regex-based operator scan, and the external `lark` parser) enter
  the embedding as explicit function parameters; every theorem quantifies over
  them, so it holds for each possible behaviour of those components.
-/

set_option autoImplicit false

namespace WQB

/-! ## Character-level helpers (Python string / regex primitives) -/

/-- The `\w` character class of the Python regexes (ASCII interpretation,
matching the identifiers the validator handles). -/
def wordChar (c : Char) : Bool :=
  c.isAlpha || c.isDigit || c == '_'

/-- The whitespace characters stripped by Python `str.strip` / matched by `\s`
(ASCII part). -/
def isSpaceChar (c : Char) : Bool :=
  c == ' ' || c == '\t' || c == '\n' || c == '\r' || c == '\x0b' || c == '\x0c'

/-- Drop leading whitespace, as in the left half of `str.strip`. -/
def ltrim (cs : List Char) : List Char :=
  cs.dropWhile isSpaceChar

/-- Python `str.strip()` on a character list. -/
def trimC (cs : List Char) : List Char :=
  ((ltrim cs).reverse.dropWhile isSpaceChar).reverse

/-- Split a character list at every occurrence of `sep`, keeping empty
segments: Python `str.split(sep)`. -/
def splitOnChar (sep : Char) : List Char → List (List Char)
  | [] => [[]]
  | c :: cs =>
    match splitOnChar sep cs with
    | [] => [[]]
    | g :: gs => if c = sep then [] :: g :: gs else (c :: g) :: gs

/-- Python `str.splitlines()` restricted to `'\n'` terminators: like splitting
on `'\n'`, except that the empty string yields no lines and a trailing
newline does not produce a final empty line. -/
def pySplitLines (cs : List Char) : List (List Char) :=
  if cs = [] then []
  else
    let parts := splitOnChar '\n' cs
    if cs.getLast? = some '\n' then parts.dropLast else parts

/-- `"
".join` on character lists. -/
def joinLines : List (List Char) → List Char
  | [] => []
  | [l] => l
  | l :: ls => l ++ '\n' :: joinLines ls

/-- Index of the first occurrence of `c`, Python `str.find` (successful case). -/
def idxOf (c : Char) : List Char → Option Nat
  | [] => none
  | x :: xs =>
    if x = c then some 0
    else (idxOf c xs).map (· + 1)

/-- The full-match test `re.match(r"^[a-zA-Z_][a-zA-Z0-9_]*$", s)` used for
variable names. -/
def isIdentC : List Char → Bool
  | [] => false
  | c :: cs => (c.isAlpha || c == '_') && cs.all (fun x => x.isAlpha || x.isDigit || x == '_')

/-- Does `text` begin with `pat`? -/
def beginsWith : List Char → List Char → Bool
  | _, [] => true
  | [], _ :: _ => false
  | t :: ts, p :: ps => t == p && beginsWith ts ps

/-- After skipping whitespace, is the next character `c`?  This is the
behaviour of the regex tail `\s*X` at a fixed position. -/
def headIsAfterWs (c : Char) : List Char → Bool
  | [] => false
  | x :: xs => if isSpaceChar x then headIsAfterWs c xs else x == c

/-- Worker for `searchFollowedBy`: `prev` is the character before the current
position (`none` at the start of the text). -/
def searchAux (boundary : Bool) (pat : List Char) (c : Char) :
    Option Char → List Char → Bool
  | _, [] => false
  | prev, t :: ts =>
    ((!boundary || (match prev with | none => true | some p => !wordChar p)) &&
      beginsWith (t :: ts) pat && headIsAfterWs c ((t :: ts).drop pat.length))
    || searchAux boundary pat c (some t) ts

/-- `re.search` of the pattern `name\s*X` (with a leading `\b` when `boundary`
is true) over `text`, for a literal `name` made of word characters:
mirrors the patterns built with `re.escape(name)` in
`DataFieldValidator._is_variable_name` / `_is_function_call`. -/
def searchFollowedBy (boundary : Bool) (pat : List Char) (c : Char) (text : List Char) : Bool :=
  searchAux boundary pat c none text

/-- Substring test, Python `sub in s`. -/
def containsSub : List Char → List Char → Bool
  | _, [] => true
  | [], _ :: _ => false
  | t :: ts, p :: ps => (t == p && beginsWith ts ps) || containsSub ts (p :: ps)

/-- Substring test on `String`s. -/
def strContains (s sub : String) : Bool :=
  containsSub s.data sub.data

/-- The CJK / fullwidth character test of the `chinese_pattern` regex
`[一-鿿　-〿＀-￯]`. -/
def isChineseChar (c : Char) : Bool :=
  (0x4e00 ≤ c.toNat && c.toNat ≤ 0x9fff) ||
  (0x3000 ≤ c.toNat && c.toNat ≤ 0x303f) ||
  (0xff00 ≤ c.toNat && c.toNat ≤ 0xffef)

/-- `chinese_pattern.search(s)` as a Boolean. -/
def containsChinese (s : String) : Bool :=
  s.data.any isChineseChar

/-- Python `str.strip('"')`: remove all leading and trailing double quotes. -/
def stripQuotes (cs : List Char) : List Char :=
  ((cs.dropWhile (· == '"')).reverse.dropWhile (· == '"')).reverse

/-! ## Type compatibility (`ExprValidator._is_type_compatible`)

The `expected` side of the check is either a plain type-kind string or a
(possibly nested) list of acceptable kinds, exactly as the values stored in
`valid_ops.json` can be; the `actual` side is always a string. -/

/-- An expected type as passed to `_is_type_compatible`: a string, or a list
of alternatives (the Python code recurses through lists with `any`). -/
inductive TExpected where
  | s (v : String)
  | list (l : List TExpected)
deriving Repr, BEq

mutual

/-- `ExprValidator._is_type_compatible(expected, actual)` from
`wqb_validator/validator.py`. -/
def is_type_compatible : TExpected → String → Bool
  | .list l, actual => anyCompatible l actual
  | .s expected, actual =>
    if expected == actual then true
    else if expected == "expr" && actual == "field" then true
    else if expected == "field" && actual == "field" then true
    else if expected == "number" && actual == "number" then true
    else if expected == "string" && actual == "string" then true
    else if expected == "boolean" && actual == "boolean" then true
    else if expected == "boolean" &&
        (actual == "expr" || actual == "field" || actual == "number") then true
    else false

/-- `any(self._is_type_compatible(e, actual) for e in expected)`. -/
def anyCompatible : List TExpected → String → Bool
  | [], _ => false
  | e :: es, actual => is_type_compatible e actual || anyCompatible es actual

end

/-- The Python truthiness test `if expect_type:` on a stored expected type. -/
def texpTruthy : TExpected → Bool
  | .s v => v != ""
  | .list l => l != []

/-! ## The diagnostic record and the base validator state -/

/-- The `ValidationError` dataclass of `wqb_validator/validator.py`. -/
structure ValidationError where
  message : String
  line : Option Nat := none
  column : Option Nat := none
  code : String := ""
  suggestion : Option String := none
deriving Repr, DecidableEq

/-- The mutable state of a `BaseValidator` (`self.errors`, `self.warnings`). -/
structure BaseValidatorState where
  errors : List ValidationError := []
  warnings : List String := []
deriving Repr, DecidableEq

/-! ## Comment filtering (`filter_comments`) -/

/-- Skip to just after the first `*/`, the non-greedy tail of the block-comment
regex; `none` when the comment is unterminated (the regex then does not
match, so the text is left as it is). -/
def dropToClose : List Char → Option (List Char)
  | [] => none
  | '*' :: '/' :: rest => some rest
  | _ :: rest => dropToClose rest

theorem dropToClose_length {l r : List Char} (h : dropToClose l = some r) :
    r.length < l.length := by
  induction l using dropToClose.induct with
  | case1 => simp [dropToClose] at h
  | case2 rest => simp only [dropToClose, Option.some.injEq] at h; subst h; simp; omega
  | case3 c rest hne ih =>
    rw [dropToClose.eq_def] at h
    split at h
    · exact absurd h (by simp)
    · rename_i heq
      exact absurd heq (by intro hx; injection hx with h1 h2; exact hne _ h1 h2)
    · rename_i heq
      cases heq
      exact Nat.lt_trans (ih h) (by simp)

/-- `re.sub(r"/\*.*?\*/", "", expr, flags=re.DOTALL)`. -/
def removeBlockComments : List Char → List Char
  | [] => []
  | '/' :: '*' :: rest =>
    match h : dropToClose rest with
    | some rest' => removeBlockComments rest'
    | none => '/' :: '*' :: rest
  | c :: rest => c :: removeBlockComments rest
termination_by l => l.length
decreasing_by
  · exact Nat.lt_trans (dropToClose_length h) (by simp; omega)
  · simp

/-- Keep only the part of a line before its first `#`. -/
def stripLineComment (l : List Char) : List Char :=
  l.takeWhile (· ≠ '#')

/-- `filter_comments` from `wqb_validator/validator.py`: strip `/* … */`
blocks, then drop everything after `#` on each line and re-join with
newlines. -/
def filter_comments (expr : String) : String :=
  String.mk (joinLines ((pySplitLines (removeBlockComments expr.data)).map stripLineComment))

/-! ## `BusinessRuleValidator` -/

namespace BusinessRuleValidator

/-- The statement list of a (stripped) line: split on `';'`, strip each part,
drop empty parts — `[s.strip() for s in line.split(";") if s.strip()]`. -/
def statementsOf (line : List Char) : List (List Char) :=
  ((splitOnChar ';' line).map trimC).filter (· ≠ [])

/-- The trailing-assignment diagnostic produced for a line. -/
def assignmentError (lineIdx : Nat) (line stmt : List Char) : ValidationError :=
  { message := "'" ++ String.mk stmt ++ "' 不能是赋值语句"
    line := some (lineIdx + 1)
    code := String.mk line
    suggestion := some "最后一行应该是表达式，不能是赋值语句" }

/-- The body of the per-line loop of `_check_assignment_rules`: the (possibly
empty) list of diagnostics that line `lineIdx` (0-based, raw text `rawLine`)
contributes. -/
def assignLineErrors (lineIdx : Nat) (rawLine : List Char) : List ValidationError :=
  let line := trimC rawLine
  if line = [] ∨ line.head? = some '#' then []
  else
    let statements := statementsOf line
    if statements.length > 1 then
      match statements.getLast? with
      | none => []
      | some last_stmt =>
        if last_stmt.contains '=' then
          let equal_pos := (idxOf '=' last_stmt).getD 0
          if equal_pos > 0 then
            let before_equal := trimC (last_stmt.take equal_pos)
            if before_equal.contains '(' then []
            else if isIdentC before_equal then
              [assignmentError lineIdx line last_stmt]
            else []
          else []
        else []
    else []

/-- Enumerating worker for `_check_assignment_rules`' line loop. -/
def assignRulesAux (idx : Nat) : List (List Char) → List ValidationError
  | [] => []
  | l :: ls => assignLineErrors idx l ++ assignRulesAux (idx + 1) ls

/-- `BusinessRuleValidator._check_assignment_rules`. -/
def check_assignment_rules (expr : List Char) : List ValidationError :=
  assignRulesAux 0 (pySplitLines expr)

/-- `BusinessRuleValidator._check_expression_structure`. -/
def check_expression_structure (expr : List Char) : List ValidationError :=
  (if trimC expr = [] then
    [{ message := "表达式不能为空", suggestion := some "请提供有效的表达式" }]
  else []) ++
  (if ((pySplitLines expr).map trimC).filter
      (fun l => l ≠ [] ∧ l.head? ≠ some '#') = [] then
    [{ message := "没有找到有效的表达式行", suggestion := some "请提供至少一行有效的表达式" }]
  else [])

/-- `BusinessRuleValidator.validate`: clear the state, run the two checks,
return the final state and the accumulated error list (`self.errors`). -/
def validate (_s : BaseValidatorState) (expr : String) :
    BaseValidatorState × List ValidationError :=
  let errs := check_assignment_rules expr.data ++ check_expression_structure expr.data
  ({ errors := errs, warnings := [] }, errs)

end BusinessRuleValidator

/-! ## `DataFieldValidator` -/

namespace DataFieldValidator

/-- `DataFieldValidator._is_operator`: membership in the keys of the global
`valid_ops` table. -/
def is_operator (validOpsKeys : List String) (name : String) : Bool :=
  validOpsKeys.contains name

/-- `DataFieldValidator._is_function_call`: `re.search(rf"\b{name}\s*\(", expr)`. -/
def is_function_call (name expr : String) : Bool :=
  searchFollowedBy true name.data '(' expr.data

/-- `DataFieldValidator._is_variable_name`: an occurrence of `name` followed
(up to whitespace) by `=` — first with a leading word boundary, then without —
or a case-insensitive boolean literal. -/
def is_variable_name (name expr : String) : Bool :=
  searchFollowedBy true name.data '=' expr.data ||
  searchFollowedBy false name.data '=' expr.data ||
  (name.toLower == "true" || name.toLower == "false")

/-- The maximal runs of word characters in a text; the identifier regex
`\b([a-zA-Z_][a-zA-Z0-9_]*)\b` matches exactly those runs that start with a
letter or underscore. -/
theorem length_dropWhile_le {α : Type} (p : α → Bool) (l : List α) :
    (l.dropWhile p).length ≤ l.length := by
  induction l with
  | nil => simp
  | cons a as ih =>
    rw [List.dropWhile_cons]
    split
    · exact Nat.le_trans ih (Nat.le_succ _)
    · exact Nat.le_refl _

def wordRuns : List Char → List (List Char)
  | [] => []
  | c :: cs =>
    if wordChar c then
      (c :: cs.takeWhile wordChar) :: wordRuns (cs.dropWhile wordChar)
    else wordRuns cs
termination_by l => l.length
decreasing_by
  · simp only [List.length_cons]
    exact Nat.lt_succ_of_le (length_dropWhile_le _ _)
  · simp

/-- `DataFieldValidator._extract_field_references`: all identifiers of the
text that are not function calls, not operators and not variable names,
collected into a set (modelled as a deduplicated list). -/
def extract_field_references (validOpsKeys : List String) (expr : String) : List String :=
  let ms := (wordRuns expr.data).filter
    (fun r => match r with | c :: _ => c.isAlpha || c == '_' | [] => false)
  (((ms.map String.mk).filter (fun m =>
      !is_function_call m expr && !is_operator validOpsKeys m &&
      !is_variable_name m expr))).dedup

/-- The unknown-data-field diagnostic. -/
def fieldError (f : String) : ValidationError :=
  { message := "无效数据字段: " ++ f
    suggestion := some "请检查字段名拼写，或查看可用字段列表" }

/-- `DataFieldValidator.validate`: clear the state, report every extracted
field reference that is not in the valid-field set. -/
def validate (validOpsKeys valid_fields : List String) (_s : BaseValidatorState)
    (expr : String) : BaseValidatorState × List ValidationError :=
  let errs := ((extract_field_references validOpsKeys expr).filter
    (fun f => !valid_fields.contains f)).map fieldError
  ({ errors := errs, warnings := [] }, errs)

end DataFieldValidator

/-! ## `SyntaxValidator`

The grammar parse itself is performed by the external `lark` library; it is
modelled as a function returning `Except LarkError Unit`.  A `LarkError`
carries the message text of the Python exception together with the result of
`_extract_error_position` (the `at line L, column C` regex) on that text. -/

/-- The interface-level model of a `lark` parse failure. -/
structure LarkError where
  msg : String
  pos : Option (Nat × Nat) := none
deriving Repr, DecidableEq

namespace SyntaxValidator

/-- `SyntaxValidator._get_error_message`. -/
def get_error_message (msg : String) : String :=
  if strContains msg "Expected one of:" && strContains msg "* SEMICOLON" then "缺少分号"
  else if strContains msg "Expected one of:" && strContains msg "CNAME" &&
      strContains msg "(" then "函数调用语法错误"
  else if strContains msg "Expected one of:" && strContains msg "RPAR" then "括号不匹配"
  else if strContains msg "Expected one of:" && strContains msg "EQUAL" then "赋值语句语法错误"
  else "语法错误"

/-- `SyntaxValidator._get_suggestion`. -/
def get_suggestion (msg : String) : String :=
  if strContains msg "SEMICOLON" then "请在语句末尾添加分号"
  else if strContains msg "RPAR" then "请检查括号是否配对"
  else if strContains msg "EQUAL" then "请检查赋值语句格式"
  else "请检查表达式语法"

/-- The diagnostic produced when no (usable) position was extracted from the
`lark` message. -/
def fallbackError (e : LarkError) : ValidationError :=
  { message := "语法错误: " ++ e.msg, suggestion := some "请检查表达式语法" }

/-- The diagnostics `SyntaxValidator.validate` produces for a parse failure:
one positioned diagnostic when the extracted line number is truthy and within
the text, the generic fallback when no position was extracted, and — as in
the source — nothing at all when a position was extracted but its line number
exceeds the number of lines. -/
def errorsFor (e : LarkError) (expr : String) : List ValidationError :=
  match e.pos with
  | some (l, c) =>
    if l ≠ 0 ∧ c ≠ 0 then
      if l ≤ (pySplitLines expr.data).length then
        [{ message := get_error_message e.msg
           line := some l
           column := some c
           code := String.mk (((pySplitLines expr.data).getD (l - 1) []))
           suggestion := some (get_suggestion e.msg) }]
      else []
    else [fallbackError e]
  | none => [fallbackError e]

/-- `SyntaxValidator.validate`: clear the state, try the parse, convert any
`LarkError` into diagnostics. -/
def validate (parse : String → Except LarkError Unit) (_s : BaseValidatorState)
    (expr : String) : BaseValidatorState × List ValidationError :=
  match parse expr with
  | .ok _ => ({ errors := [], warnings := [] }, [])
  | .error e =>
    let errs := errorsFor e expr
    ({ errors := errs, warnings := [] }, errs)

end SyntaxValidator

/-! ## `CharacterValidator` and `OperatorValidator`

Their per-call scans are pure functions of the filtered text; the claims under
verification quantify over those scans, so they enter the embedding as
parameters (`charCompute`, `idCompute`, `opCompute`) while the clear/return
state discipline of the classes is kept explicit. -/

namespace CharacterValidator

/-- `CharacterValidator.validate`: clear the state, run the per-line scans
(abstracted as `compute`), return `self.errors`. -/
def validate (compute : String → List ValidationError) (_s : BaseValidatorState)
    (expr : String) : BaseValidatorState × List ValidationError :=
  let s' : BaseValidatorState := { errors := compute expr, warnings := [] }
  (s', s'.errors)

/-- `CharacterValidator._validate_identifiers(expr, 0)` called directly by the
orchestrator: it does not clear, appends its findings (abstracted as
`compute`) to the current error list and returns the whole of `self.errors`. -/
def validate_identifiers (compute : String → List ValidationError)
    (s : BaseValidatorState) (expr : String) :
    BaseValidatorState × List ValidationError :=
  let s' : BaseValidatorState := { s with errors := s.errors ++ compute expr }
  (s', s'.errors)

end CharacterValidator

namespace OperatorValidator

/-- `OperatorValidator.validate`: clear the state, run the regex-based call
scan (abstracted as `compute`), return `self.errors`. -/
def validate (compute : String → List ValidationError) (_s : BaseValidatorState)
    (expr : String) : BaseValidatorState × List ValidationError :=
  let s' : BaseValidatorState := { errors := compute expr, warnings := [] }
  (s', s'.errors)

end OperatorValidator

/-! ## The orchestrator (`ExpressionValidator.validate`) -/

/-- Rendering of one diagnostic into the string returned to the caller,
including the Python truthiness tests on `error.line and error.column` and on
`error.suggestion`. -/
def renderError (e : ValidationError) : String :=
  let base :=
    match e.line, e.column with
    | some l, some c =>
      if l ≠ 0 ∧ c ≠ 0 then
        "第" ++ toString l ++ "行第" ++ toString c ++ "列: " ++ e.message
      else e.message
    | _, _ => e.message
  match e.suggestion with
  | some s => if s ≠ "" then base ++ " (" ++ s ++ ")" else base
  | none => base

/-- The three abstracted scans plus the external parser, fixed for the
lifetime of a validator instance. -/
structure OrchStages where
  charCompute : String → List ValidationError
  idCompute : String → List ValidationError
  parse : String → Except LarkError Unit
  opCompute : String → List ValidationError

/-- The state of an `ExpressionValidator` instance: one `BaseValidatorState`
per sub-validator, plus the catalogs fixed at construction time. -/
structure ExpressionValidatorState where
  character_validator : BaseValidatorState
  syntax_validator : BaseValidatorState
  business_validator : BaseValidatorState
  operator_validator : BaseValidatorState
  data_field_validator : BaseValidatorState
  valid_field_names : List String
  valid_ops_names : List String

namespace ExpressionValidator

/-- `ExpressionValidator.validate` from `wqb_validator/validator.py`: filter
comments, run the six passes in order (extending `all_errors` after each),
and return `(False, rendered messages)` when any error was collected,
`(True, [])` otherwise.  Note that `char_errors` and `id_errors` are the same
Python list object: by the time the second `extend` runs, it holds the
character errors followed by the identifier errors. -/
def validate (stg : OrchStages) (v : ExpressionValidatorState) (expr : String) :
    ExpressionValidatorState × (Bool × List String) :=
  let filtered_expr := filter_comments expr
  let charRes := CharacterValidator.validate stg.charCompute v.character_validator filtered_expr
  let all1 := charRes.2
  let idRes := CharacterValidator.validate_identifiers stg.idCompute charRes.1 filtered_expr
  let all2 := all1 ++ idRes.2
  let synRes := SyntaxValidator.validate stg.parse v.syntax_validator filtered_expr
  let all3 := all2 ++ synRes.2
  let opRes := OperatorValidator.validate stg.opCompute v.operator_validator filtered_expr
  let all4 := all3 ++ opRes.2
  let dfRes := DataFieldValidator.validate v.valid_ops_names v.valid_field_names
    v.data_field_validator filtered_expr
  let all5 := all4 ++ dfRes.2
  let bizRes := BusinessRuleValidator.validate v.business_validator filtered_expr
  let all_errors := all5 ++ bizRes.2
  let v' := { v with
    character_validator := idRes.1
    syntax_validator := synRes.1
    operator_validator := opRes.1
    data_field_validator := dfRes.1
    business_validator := bizRes.1 }
  if all_errors ≠ [] then (v', (false, all_errors.map renderError))
  else (v', (true, []))

/-- The full error list the orchestrator accumulates for an input; the
returned verdict and messages are determined by it. -/
def all_errors (stg : OrchStages) (v : ExpressionValidatorState) (expr : String) :
    List ValidationError :=
  let filtered_expr := filter_comments expr
  stg.charCompute filtered_expr ++
  (stg.charCompute filtered_expr ++ stg.idCompute filtered_expr) ++
  (SyntaxValidator.validate stg.parse v.syntax_validator filtered_expr).2 ++
  stg.opCompute filtered_expr ++
  (DataFieldValidator.validate v.valid_ops_names v.valid_field_names
    v.data_field_validator filtered_expr).2 ++
  (BusinessRuleValidator.validate v.business_validator filtered_expr).2

theorem validate_eq (stg : OrchStages) (v : ExpressionValidatorState) (expr : String) :
    (validate stg v expr).2 =
      (if all_errors stg v expr ≠ [] then
        (false, (all_errors stg v expr).map renderError)
      else (true, [])) := by
  simp only [validate, all_errors, CharacterValidator.validate,
    CharacterValidator.validate_identifiers, OperatorValidator.validate,
    SyntaxValidator.validate, DataFieldValidator.validate,
    BusinessRuleValidator.validate, List.append_assoc]
  split <;> rfl

end ExpressionValidator

/-! ## The semantic analyzer (`ExprValidator`)

The nodes the tree-walking transformer manipulates are `lark` tokens, `lark`
trees, or the plain dictionaries its own handlers return. -/

/-- A node as seen by `ExprValidator`: a `lark` `Token` (with its terminal
name and text), a `lark` `Tree` (with its rule name and children), or a
transformed result dictionary `{"type": …, "name": …, "return_type": …}`. -/
inductive Node where
  | token (ttype : String) (sval : String)
  | tree (tdata : String) (children : List Node)
  | vdict (dtype : String) (dname : String) (dreturn : String)
deriving Repr, BEq

/-- One entry of the global `valid_ops` table (`valid_ops.json`).  Fields the
Python code reads with `op.get(…)` are `Option`s or carry the `.get` default. -/
structure OpInfo where
  min_args : Nat
  max_args : Option Nat := none
  arg_types : List TExpected := []
  kwarg_types : List (String × TExpected) := []
  var_args_type : Option TExpected := none
  choices : List (String × List String) := []
  return_type : Option String := none
deriving Repr

/-- The state of an `ExprValidator` instance (`self.errors`, `self.variables`,
`self.variable_exprs`, `self.valid_field_names`), together with the
module-level `valid_ops` table it reads.  `self.variables` is rendered as
`variables_` because `variables` is a reserved word in Lean. -/
structure ExprValidatorState where
  errors : List String := []
  variables_ : List (String × String) := []
  variable_exprs : List (String × Node) := []
  valid_field_names : List String := []
  valid_ops : List (String × OpInfo) := []

/-- The boolean literal spellings the analyzer recognises. -/
def boolLits : List String := ["true", "false", "True", "False"]

/-- `str(node)` for the places the source stringifies a node; for the trees
the claims exercise this is always a `lark` token, whose `str` is its text. -/
def nodeStr : Node → String
  | .token _ v => v
  | .tree d _ => d
  | .vdict _ n _ => n

/-- `hasattr(node, "data") and node.data == "kwarg"`. -/
def isKwargNode : Node → Bool
  | .tree d _ => d == "kwarg"
  | _ => false

namespace ExprValidator

/-- The names (with multiplicity) for which `self.variable_exprs` has an
entry; the termination measure of the lazy resolver counts the ones not yet
visited. -/
def varKeys (st : ExprValidatorState) : List String :=
  st.variable_exprs.map Prod.fst

/-- Number of resolvable variable names not yet in the visiting set. -/
def unvisited (st : ExprValidatorState) (vis : List String) : Nat :=
  ((varKeys st).filter (fun n => decide (n ∉ vis))).length

theorem filter_length_le_of_imp {α : Type} (l : List α) (p q : α → Bool)
    (h : ∀ a, q a = true → p a = true) :
    (l.filter q).length ≤ (l.filter p).length := by
  induction l with
  | nil => simp
  | cons a as ih =>
    by_cases hq : q a = true
    · simp [List.filter_cons, hq, h a hq]
      omega
    · simp only [List.filter_cons, Bool.not_eq_true] at hq ⊢
      rw [hq]
      simp only [Bool.false_eq_true, if_false]
      split
      · exact Nat.le_trans ih (by simp)
      · exact ih

theorem filter_length_lt_of_mem {α : Type} (l : List α) (p q : α → Bool) (a : α)
    (ha : a ∈ l) (hpa : p a = true) (hqa : q a = false)
    (h : ∀ x, q x = true → p x = true) :
    (l.filter q).length < (l.filter p).length := by
  induction l with
  | nil => simp at ha
  | cons b bs ih =>
    rcases List.mem_cons.1 ha with rfl | hmem
    · simp [List.filter_cons, hpa, hqa]
      exact Nat.lt_succ_of_le (filter_length_le_of_imp bs p q h)
    · by_cases hq : q b = true
      · simp [List.filter_cons, hq, h b hq]
        exact ih hmem
      · simp only [List.filter_cons, Bool.not_eq_true] at hq ⊢
        rw [hq]
        simp only [Bool.false_eq_true, if_false]
        split
        · exact Nat.lt_of_lt_of_le (ih hmem) (by simp)
        · exact ih hmem

theorem unvisited_mono (st : ExprValidatorState) {vis vis' : List String}
    (h : ∀ x ∈ vis, x ∈ vis') : unvisited st vis' ≤ unvisited st vis := by
  refine filter_length_le_of_imp _ _ _ ?_
  intro a ha
  simp only [decide_eq_true_eq] at ha ⊢
  exact fun hx => ha (h a hx)

theorem unvisited_cons_lt (st : ExprValidatorState) {var : String}
    {vis : List String} (hmem : var ∈ varKeys st) (hnv : var ∉ vis) :
    unvisited st (var :: vis) < unvisited st vis := by
  refine filter_length_lt_of_mem _ _ _ var hmem ?_ ?_ ?_
  · simpa using hnv
  · simp
  · intro x hx
    simp only [decide_eq_true_eq, List.mem_cons] at hx ⊢
    exact fun hmx => hx (Or.inr hmx)

theorem lookup_some_mem_keys {β : Type} {l : List (String × β)} {k : String}
    {v : β} (h : l.lookup k = some v) : k ∈ l.map Prod.fst := by
  induction l with
  | nil => simp [List.lookup] at h
  | cons a as ih =>
    rw [List.lookup] at h
    by_cases hk : k == a.1
    · simp [beq_iff_eq] at hk
      simp [hk]
    · simp only [hk, Bool.false_eq_true, if_false] at h
      simp [ih h]

mutual

/-- Structural size of a node (executable replacement for `sizeOf`). -/
def nodeSize : Node → Nat
  | .token _ _ => 1
  | .vdict _ _ _ => 1
  | .tree _ cs => 1 + nodesSize cs

/-- Structural size of a child list. -/
def nodesSize : List Node → Nat
  | [] => 1
  | c :: cs => 1 + nodeSize c + nodesSize cs

end

theorem nodeSize_pos (n : Node) : 0 < nodeSize n := by
  cases n <;> simp [nodeSize]

theorem lex_of_le_of_lt {a₁ a₂ b₁ b₂ : Nat} (h1 : a₁ ≤ a₂) (h2 : b₁ < b₂) :
    Prod.Lex (· < ·) (· < ·) (a₁, b₁) (a₂, b₂) := by
  rcases Nat.lt_or_ge a₁ a₂ with h | h
  · exact Prod.Lex.left _ _ h
  · have : a₁ = a₂ := Nat.le_antisymm h1 h
    subst this
    exact Prod.Lex.right _ h2

theorem subset_append (d vis : List String) : ∀ x ∈ vis, x ∈ d ++ vis :=
  fun _ hx => List.mem_append_right _ hx

mutual

/-- `ExprValidator._resolve_variable_type(var_name, visited)`.  The Python
code mutates one shared `visited` set in place; here every call returns the
inferred type kind together with the list of names it newly added, and each
call site passes `delta ++ vis` on, so that the visiting set only ever grows
by construction.  Termination is by the lexicographic measure (number of
unvisited resolvable variable names, node size): entering an unvisited
variable with a defining expression strictly shrinks the first component,
every other recursive call keeps it from growing and shrinks the node. -/
def resolveVarAux (st : ExprValidatorState) (var : String) (vis : List String) :
    String × List String :=
  if hv : var ∈ vis then ("unknown", [])
  else
    let t := (st.variables_.lookup var).getD "unknown"
    if t ≠ "unknown" then (t, [var])
    else
      match hE : st.variable_exprs.lookup var with
      | none => ("unknown", [var])
      | some expr =>
        let r := getNodeTypeAux st expr (var :: vis)
        if r.1 ≠ "unknown" then (r.1, r.2 ++ [var])
        else
          match expr with
          | .vdict dt dn dr =>
            let rv := dictValuesScan st [dt, dn, dr] (r.2 ++ var :: vis)
            (rv.1, rv.2 ++ r.2 ++ [var])
          | .tree _ cs =>
            let rs := scanChildren st cs (r.2 ++ var :: vis)
            (rs.1, rs.2 ++ r.2 ++ [var])
          | .token _ _ => ("unknown", r.2 ++ [var])
termination_by (unvisited st vis, 0)
decreasing_by
  all_goals simp_wf
  · exact Prod.Lex.left _ _ (unvisited_cons_lt st (lookup_some_mem_keys hE) hv)
  · exact Prod.Lex.left _ _ (Nat.lt_of_le_of_lt
      (unvisited_mono st (subset_append _ (var :: vis)))
      (unvisited_cons_lt st (lookup_some_mem_keys hE) hv))
  · exact Prod.Lex.left _ _ (Nat.lt_of_le_of_lt
      (unvisited_mono st (subset_append _ (var :: vis)))
      (unvisited_cons_lt st (lookup_some_mem_keys hE) hv))

/-- The `for v in expr.values()` loop of `_resolve_variable_type`: a value
that names a variable is resolved recursively, any other plain string has
type `unknown` (`_get_node_type` of a `str` falls through); the first
non-`unknown` result is returned. -/
def dictValuesScan (st : ExprValidatorState) (vs : List String)
    (vis : List String) : String × List String :=
  match vs with
  | [] => ("unknown", [])
  | v :: rest =>
    let rv := if (st.variables_.lookup v).isSome then resolveVarAux st v vis
      else ("unknown", [])
    if rv.1 ≠ "unknown" then rv
    else
      let rs := dictValuesScan st rest (rv.2 ++ vis)
      (rs.1, rs.2 ++ rv.2)
termination_by (unvisited st vis, vs.length + 1)
decreasing_by
  all_goals simp_wf
  · exact Prod.Lex.right _ (by omega)
  · exact lex_of_le_of_lt (unvisited_mono st (subset_append _ vis)) (by omega)

/-- The `for child in expr.children` loop of `_resolve_variable_type`: the
first non-`unknown` child type, else `unknown`. -/
def scanChildren (st : ExprValidatorState) (cs : List Node)
    (vis : List String) : String × List String :=
  match cs with
  | [] => ("unknown", [])
  | c :: rest =>
    let rc := getNodeTypeAux st c vis
    if rc.1 ≠ "unknown" then rc
    else
      let rs := scanChildren st rest (rc.2 ++ vis)
      (rs.1, rs.2 ++ rc.2)
termination_by (unvisited st vis, 2 * nodesSize cs)
decreasing_by
  all_goals simp_wf
  · exact Prod.Lex.right _ (by simp [nodesSize] <;> omega)
  · exact lex_of_le_of_lt (unvisited_mono st (subset_append _ vis))
      (by simp [nodesSize] <;> omega)

/-- `ExprValidator._get_node_type(node, visited)` — dispatch on the three
node shapes; the `lark`-tree case is `treeTypeAux`. -/
def getNodeTypeAux (st : ExprValidatorState) (n : Node) (vis : List String) :
    String × List String :=
  match n with
  | .token tt tv =>
    if tt == "SIGNED_NUMBER" then ("number", [])
    else if tt == "ESCAPED_STRING" then ("string", [])
    else if tt == "BOOLEAN" then ("boolean", [])
    else if tt == "CNAME" then
      if tv ∈ boolLits then ("boolean", [])
      else
        match st.variables_.lookup tv with
        | some t =>
          if t == "unknown" then resolveVarAux st tv vis
          else (t, [])
        | none =>
          if tv ∈ st.valid_field_names then ("field", [])
          else ("unknown", [])
    else ("unknown", [])
  | .vdict dt dn dr =>
    if dt == "function_call" then (dr, [])
    else if dt == "field" then ("field", [])
    else if dt == "variable" then resolveVarAux st dn vis
    else if dt == "boolean" then ("boolean", [])
    else (dr, [])
  | .tree td cs => treeTypeAux st td cs vis
termination_by (unvisited st vis, 2 * nodeSize n)
decreasing_by
  all_goals simp_wf
  · exact Prod.Lex.right _ (by simp [nodeSize])
  · exact Prod.Lex.right _ (by simp [nodeSize])
  · exact Prod.Lex.right _ (by simp [nodeSize] <;> omega)

/-- The `hasattr(node, "data")` branches of `_get_node_type` for a tree with
rule name `td` and children `cs`. -/
def treeTypeAux (st : ExprValidatorState) (td : String) (cs : List Node)
    (vis : List String) : String × List String :=
  if td == "number" then ("number", [])
  else if td == "string" then ("string", [])
  else if td == "boolean" then ("boolean", [])
  else if td == "field" then
    match cs with
    | c0 :: _ =>
      let rc := getNodeTypeAux st c0 vis
      let res := match c0 with
        | .token _ v => if v ∈ boolLits then "boolean" else rc.1
        | _ => rc.1
      (res, rc.2)
    | [] => ("unknown", [])
  else if td == "function" then
    match cs with
    | .token tt tv :: _ =>
      if tt == "CNAME" then
        match st.valid_ops.lookup tv with
        | some op => (op.return_type.getD "unknown", [])
        | none => ("unknown", [])
      else ("unknown", [])
    | _ => ("unknown", [])
  else if td ∈ (["expr", "logic_or", "logic_and", "logic_not", "comparison",
      "unary_expr", "atom"] : List String) then
    match cs with
    | c0 :: _ => getNodeTypeAux st c0 vis
    | [] => ("unknown", [])
  else if td ∈ (["add_expr", "mul_expr"] : List String) then
    match cs with
    | c0 :: _ :: c2 :: _ =>
      let rl := getNodeTypeAux st c0 vis
      let rr := getNodeTypeAux st c2 (rl.2 ++ vis)
      let res :=
        if rl.1 == "unknown" && rr.1 == "unknown" then "unknown"
        else if rl.1 == "expr" || rl.1 == "field" ||
            rr.1 == "expr" || rr.1 == "field" then "expr"
        else if rl.1 == "number" && rr.1 == "number" then "number"
        else "expr"
      (res, rr.2 ++ rl.2)
    | c0 :: _ => getNodeTypeAux st c0 vis
    | [] => ("unknown", [])
  else if td ∈ (["greater", "greater_eq", "less", "less_eq", "eq", "neq"] :
      List String) then ("boolean", [])
  else ("unknown", [])
termination_by (unvisited st vis, 2 * nodesSize cs + 1)
decreasing_by
  all_goals simp_wf
  · exact Prod.Lex.right _ (by simp [nodeSize, nodesSize] <;> omega)
  · exact Prod.Lex.right _ (by simp [nodeSize, nodesSize] <;> omega)
  · exact Prod.Lex.right _ (by simp [nodeSize, nodesSize] <;> omega)
  · exact lex_of_le_of_lt (unvisited_mono st (subset_append _ vis))
      (by simp [nodeSize, nodesSize] <;> omega)
  · exact Prod.Lex.right _ (by simp [nodeSize, nodesSize] <;> omega)

end

/-- `ExprValidator._resolve_variable_type(var_name, visited)`: the inferred
type kind (the visiting set lives only for the duration of the call). -/
def resolve_variable_type (st : ExprValidatorState) (var : String)
    (vis : List String := []) : String :=
  (resolveVarAux st var vis).1

/-- `ExprValidator._get_node_type(node, visited)`. -/
def get_node_type (st : ExprValidatorState) (n : Node)
    (vis : List String := []) : String :=
  (getNodeTypeAux st n vis).1

/-- The type kind of a node as the `function` handler queries it
(`self._get_node_type(node)`, fresh visiting set). -/
def nodeTypeOf (st : ExprValidatorState) (n : Node) : String :=
  get_node_type st n

/-- `ExprValidator.field(token)` — the handler for field-reference atoms.
`field_name` is `str(token[0])`. -/
def field (st : ExprValidatorState) (field_name : String) :
    ExprValidatorState × Node :=
  let errs0 := st.errors ++ (if containsChinese field_name then
    ["字段名 '" ++ field_name ++ "' 包含中文字符，不支持"] else [])
  if field_name ∈ boolLits then
    ({ st with errors := errs0 }, .vdict "boolean" field_name "boolean")
  else
    match st.variables_.lookup field_name with
    | some t => ({ st with errors := errs0 }, .vdict "variable" field_name t)
    | none =>
      if field_name ∈ st.valid_field_names then
        ({ st with errors := errs0 }, .vdict "field" field_name "field")
      else
        ({ st with errors := errs0 ++ ["未知字段: " ++ field_name] },
          .vdict "field" field_name "unknown")

/-- Python `str(list)` of a list of strings, e.g. `['a', 'b']`. -/
def pyListRepr (l : List String) : String :=
  "[" ++ String.intercalate ", " (l.map (fun s => "'" ++ s ++ "'")) ++ "]"

mutual

/-- Python `repr` of an expected type inside a list. -/
def texpItemRepr : TExpected → String
  | .s v => "'" ++ v ++ "'"
  | .list l => "[" ++ texpReprItems l ++ "]"

/-- Comma-separated `repr`s of list items. -/
def texpReprItems : List TExpected → String
  | [] => ""
  | [e] => texpItemRepr e
  | e :: es => texpItemRepr e ++ ", " ++ texpReprItems es

end

/-- Python `str(expect_type)` as interpolated into error messages. -/
def texpToString : TExpected → String
  | .s v => v
  | .list l => "[" ++ texpReprItems l ++ "]"

/-- The legacy fallback: positions beyond `arg_types` are checked against its
last entry when there is no (truthy) `var_args_type`. -/
def lastPositionalFallback (st : ExprValidatorState) (name : String)
    (op : OpInfo) (i : Nat) (node : Node) : List String :=
  match op.arg_types.getLast? with
  | some expect =>
    let actual := nodeTypeOf st node
    if !is_type_compatible expect actual then
      [name ++ " 的第" ++ toString (i + 1) ++ "个位置参数类型应为 " ++
        texpToString expect ++ "，实际为 " ++ actual]
    else []
  | none => []

/-- The error contributed by positional argument `i` of a call to `name`
(the `for i, node in enumerate(pos_args)` loop body). -/
def positionalTypeError (st : ExprValidatorState) (name : String) (op : OpInfo)
    (i : Nat) (node : Node) : List String :=
  if h : i < op.arg_types.length then
    let expect := op.arg_types.get ⟨i, h⟩
    let actual := nodeTypeOf st node
    if !is_type_compatible expect actual then
      [name ++ " 的第" ++ toString (i + 1) ++ "个位置参数类型应为 " ++
        texpToString expect ++ "，实际为 " ++ actual]
    else []
  else
    match op.var_args_type with
    | some vat =>
      if texpTruthy vat then
        let actual := nodeTypeOf st node
        if !is_type_compatible vat actual then
          [name ++ " 的第" ++ toString (i + 1) ++ "个可变参数类型应为 " ++
            texpToString vat ++ "，实际为 " ++ actual]
        else []
      else lastPositionalFallback st name op i node
    | none => lastPositionalFallback st name op i node

/-- The errors contributed by one keyword argument node (the
`for node in kw_args` loop body); the source indexes `node.children[0]` and
`node.children[1]`, so only `kwarg` trees with two children reach it. -/
def kwargError (st : ExprValidatorState) (name : String) (op : OpInfo)
    (n : Node) : List String :=
  match n with
  | .tree _ (k :: v :: _) =>
    let key := nodeStr k
    match op.kwarg_types.lookup key with
    | none => [name ++ " 的参数 `" ++ key ++ "` 不是有效参数名"]
    | some expect =>
      let actual := nodeTypeOf st v
      if texpTruthy expect && !is_type_compatible expect actual then
        [name ++ " 的参数 `" ++ key ++ "` 类型应为 " ++ texpToString expect ++
          "，实际为 " ++ actual]
      else []
  | _ => []

/-- The string value the choices check extracts from a keyword's value node:
`str(value_node.children[0]).strip('"')` for a `string` tree, otherwise
`str(value_node).strip('"')`. -/
def choiceValueOf (vn : Node) : String :=
  match vn with
  | .tree "string" (c :: _) => String.mk (stripQuotes (nodeStr c).data)
  | _ => String.mk (stripQuotes (nodeStr vn).data)

/-- The errors of the choices loop for one child of the argument tree. -/
def choiceError (name : String) (op : OpInfo) (child : Node) : List String :=
  match child with
  | .tree d [kn, vn] =>
    if d == "kwarg" then
      let key := nodeStr kn
      let value := choiceValueOf vn
      match op.choices.lookup key with
      | some allowed =>
        if !allowed.contains value then
          [name ++ " 的参数 `" ++ key ++ "` 不合法：" ++ value ++
            "，应为 " ++ pyListRepr allowed]
        else []
      | none => []
    else []
  | _ => []

/-- The whole choices pass: only runs when the operator declares choices and
the call has an argument subtree. -/
def choiceErrors (name : String) (op : OpInfo) (rest : List Node) : List String :=
  if !op.choices.isEmpty && !rest.isEmpty then
    match rest.head? with
    | some (.tree _ cs) => (cs.map (choiceError name op)).join
    | _ => []
  else []

/-- `ExprValidator.function(args)` — the handler for function-call nodes.
`name` is `str(args[0])` and `rest` is `args[1:]`; when the first remaining
element is a tree its children are the argument nodes. -/
def function (st : ExprValidatorState) (name : String) (rest : List Node) :
    ExprValidatorState × Node :=
  let errs0 := st.errors ++ (if containsChinese name then
    ["操作符名 '" ++ name ++ "' 包含中文字符，不支持"] else [])
  let arg_nodes : List Node :=
    match rest with
    | [] => []
    | a :: _ =>
      match a with
      | .tree _ cs => cs
      | _ => rest
  match st.valid_ops.lookup name with
  | none =>
    ({ st with errors := errs0 ++ ["未知操作符: " ++ name] },
      .vdict "function_call" name "unknown")
  | some op =>
    let pos_args := arg_nodes.filter (fun n => !isKwargNode n)
    let kw_args := arg_nodes.filter isKwargNode
    let arityErrs :=
      (if pos_args.length < op.min_args then
        [name ++ " 位置参数不足: 至少需要 " ++ toString op.min_args ++
          " 个，实际为 " ++ toString pos_args.length]
      else []) ++
      (match op.max_args with
       | some m =>
         if pos_args.length > m then
           [name ++ " 位置参数过多: 最多允许 " ++ toString m ++
             " 个，实际为 " ++ toString pos_args.length]
         else []
       | none => [])
    let posErrs := (pos_args.enum.map
      (fun p => positionalTypeError st name op p.1 p.2)).join
    let kwErrs := (kw_args.map (kwargError st name op)).join
    let chErrs := choiceErrors name op rest
    ({ st with errors := errs0 ++ arityErrs ++ posErrs ++ kwErrs ++ chErrs },
      .vdict "function_call" name (op.return_type.getD "unknown"))

/-! ### Computation rules for the lazy type engine -/

theorem resolveVarAux_mem {st : ExprValidatorState} {var : String}
    {vis : List String} (h : var ∈ vis) :
    resolveVarAux st var vis = ("unknown", []) := by
  rw [resolveVarAux.eq_def]
  simp [h]

theorem getNodeTypeAux_vardict (st : ExprValidatorState) (dn dr : String)
    (vis : List String) :
    getNodeTypeAux st (.vdict "variable" dn dr) vis = resolveVarAux st dn vis := by
  rw [getNodeTypeAux.eq_def]
  rfl

theorem getNodeTypeAux_fcall (st : ExprValidatorState) (dn dr : String)
    (vis : List String) :
    getNodeTypeAux st (.vdict "function_call" dn dr) vis = (dr, []) := by
  rw [getNodeTypeAux.eq_def]
  rfl

theorem dictValuesScan_nil (st : ExprValidatorState) (vis : List String) :
    dictValuesScan st [] vis = ("unknown", []) := by
  rw [dictValuesScan.eq_def]

theorem dictValuesScan_none {st : ExprValidatorState} {v : String}
    (rest : List String) (vis : List String)
    (h : st.variables_.lookup v = none) :
    dictValuesScan st (v :: rest) vis = dictValuesScan st rest vis := by
  rw [dictValuesScan.eq_def]
  dsimp only
  simp [h]

theorem dictValuesScan_some_unknown {st : ExprValidatorState} {v t : String}
    (rest : List String) (vis d : List String)
    (h : st.variables_.lookup v = some t)
    (hr : resolveVarAux st v vis = ("unknown", d)) :
    dictValuesScan st (v :: rest) vis =
      ((dictValuesScan st rest (d ++ vis)).1,
       (dictValuesScan st rest (d ++ vis)).2 ++ d) := by
  rw [dictValuesScan.eq_def]
  dsimp only
  simp [h, hr]

theorem resolveVarAux_vardict {st : ExprValidatorState} {v w dr : String}
    {vis : List String} (hv : v ∉ vis)
    (h1 : st.variables_.lookup v = some "unknown")
    (hE : st.variable_exprs.lookup v = some (.vdict "variable" w dr)) :
    resolveVarAux st v vis =
      (let r := getNodeTypeAux st (.vdict "variable" w dr) (v :: vis)
       if r.1 ≠ "unknown" then (r.1, r.2 ++ [v])
       else
         let rv := dictValuesScan st ["variable", w, dr] (r.2 ++ v :: vis)
         (rv.1, rv.2 ++ r.2 ++ [v])) := by
  rw [resolveVarAux.eq_def]
  simp [hv, h1, hE]
  split
  · rename_i hnone
    rw [hE] at hnone
    cases hnone
  · rename_i expr hsome
    rw [hE] at hsome
    injection hsome with h
    subst h
    rfl

end ExprValidator

/-! ## The claims -/

/-- **C8**: lazy variable-type resolution terminates for every scope and
variable name — witnessed by the fact that `resolveVarAux` is a total
function — and the visiting-set guard makes a self-referential chain resolve
to `unknown` instead of recursing forever: a name already in the visiting set
returns immediately (first conjunct), a variable whose defining expression
references itself directly resolves to `unknown` having entered the name
exactly once (second conjunct), and likewise for a two-variable transitive
cycle (third conjunct). -/
theorem lazy_resolution_terminates_on_cycles :
    (∀ (st : ExprValidatorState) (v : String) (vis : List String), v ∈ vis →
      ExprValidator.resolveVarAux st v vis = ("unknown", [])) ∧
    (∀ (st : ExprValidatorState) (v : String),
      st.variables_.lookup v = some "unknown" →
      st.variable_exprs.lookup v = some (.vdict "variable" v "unknown") →
      st.variables_.lookup "variable" = none →
      st.variables_.lookup "unknown" = none →
      ExprValidator.resolveVarAux st v [] = ("unknown", [v]) ∧
      ExprValidator.resolve_variable_type st v = "unknown") ∧
    (∀ (st : ExprValidatorState) (a b : String), a ≠ b →
      st.variables_.lookup a = some "unknown" →
      st.variables_.lookup b = some "unknown" →
      st.variable_exprs.lookup a = some (.vdict "variable" b "unknown") →
      st.variable_exprs.lookup b = some (.vdict "variable" a "unknown") →
      st.variables_.lookup "variable" = none →
      st.variables_.lookup "unknown" = none →
      ExprValidator.resolveVarAux st a [] = ("unknown", [b, a]) ∧
      ExprValidator.resolve_variable_type st a = "unknown") := by
  refine ⟨fun st v vis h => ExprValidator.resolveVarAux_mem h, ?_, ?_⟩
  · intro st v h1 h2 h3 h4
    have hg : ExprValidator.getNodeTypeAux st (.vdict "variable" v "unknown") [v] =
        ("unknown", []) := by
      rw [ExprValidator.getNodeTypeAux_vardict]
      exact ExprValidator.resolveVarAux_mem (by simp)
    have hd : ExprValidator.dictValuesScan st ["variable", v, "unknown"] [v] =
        ("unknown", []) := by
      rw [ExprValidator.dictValuesScan_none _ _ h3]
      rw [ExprValidator.dictValuesScan_some_unknown _ _ [] h1
        (ExprValidator.resolveVarAux_mem (by simp))]
      simp [ExprValidator.dictValuesScan_none _ _ h4,
        ExprValidator.dictValuesScan_nil]
    have hmain : ExprValidator.resolveVarAux st v [] = ("unknown", [v]) := by
      rw [ExprValidator.resolveVarAux_vardict (by simp) h1 h2]
      simp [hg, hd]
    exact ⟨hmain, by simp [ExprValidator.resolve_variable_type, hmain]⟩
  · intro st a b hab h1a h1b h2a h2b h3 h4
    have hga : ExprValidator.getNodeTypeAux st (.vdict "variable" a "unknown") [b, a] =
        ("unknown", []) := by
      rw [ExprValidator.getNodeTypeAux_vardict]
      exact ExprValidator.resolveVarAux_mem (by simp)
    have hdb : ExprValidator.dictValuesScan st ["variable", a, "unknown"] [b, a] =
        ("unknown", []) := by
      rw [ExprValidator.dictValuesScan_none _ _ h3]
      rw [ExprValidator.dictValuesScan_some_unknown _ _ [] h1a
        (ExprValidator.resolveVarAux_mem (by simp))]
      simp [ExprValidator.dictValuesScan_none _ _ h4,
        ExprValidator.dictValuesScan_nil]
    have hb : ExprValidator.resolveVarAux st b [a] = ("unknown", [b]) := by
      rw [ExprValidator.resolveVarAux_vardict
        (by simp [Ne.symm hab]) h1b h2b]
      simp [hga, hdb]
    have hgb : ExprValidator.getNodeTypeAux st (.vdict "variable" b "unknown") [a] =
        ("unknown", [b]) := by
      rw [ExprValidator.getNodeTypeAux_vardict]
      exact hb
    have hda : ExprValidator.dictValuesScan st ["variable", b, "unknown"] [b, a] =
        ("unknown", []) := by
      rw [ExprValidator.dictValuesScan_none _ _ h3]
      rw [ExprValidator.dictValuesScan_some_unknown _ _ [] h1b
        (ExprValidator.resolveVarAux_mem (by simp))]
      simp [ExprValidator.dictValuesScan_none _ _ h4,
        ExprValidator.dictValuesScan_nil]
    have hmain : ExprValidator.resolveVarAux st a [] = ("unknown", [b, a]) := by
      rw [ExprValidator.resolveVarAux_vardict (by simp) h1a h2a]
      simp [hgb, hda]
    exact ⟨hmain, by simp [ExprValidator.resolve_variable_type, hmain]⟩

/-- Witness for C8 at concrete states: a direct self-cycle `a = a`, a
transitive cycle `a = b, b = a`, and a guard hit. -/
theorem lazy_resolution_cycle_witness :
    ExprValidator.resolveVarAux
      ({ variables_ := [("a", "unknown")],
         variable_exprs := [("a", Node.vdict "variable" "a" "unknown")] } :
        ExprValidatorState) "a" [] = ("unknown", ["a"]) ∧
    ExprValidator.resolveVarAux
      ({ variables_ := [("a", "unknown"), ("b", "unknown")],
         variable_exprs := [("a", Node.vdict "variable" "b" "unknown"),
                            ("b", Node.vdict "variable" "a" "unknown")] } :
        ExprValidatorState) "a" [] = ("unknown", ["b", "a"]) ∧
    ExprValidator.resolveVarAux
      ({ variables_ := [("a", "unknown")] } : ExprValidatorState) "a" ["a"] =
      ("unknown", []) :=
  ⟨(lazy_resolution_terminates_on_cycles.2.1
      { variables_ := [("a", "unknown")],
        variable_exprs := [("a", Node.vdict "variable" "a" "unknown")] }
      "a" rfl rfl rfl rfl).1,
   (lazy_resolution_terminates_on_cycles.2.2
      { variables_ := [("a", "unknown"), ("b", "unknown")],
        variable_exprs := [("a", Node.vdict "variable" "b" "unknown"),
                           ("b", Node.vdict "variable" "a" "unknown")] }
      "a" "b" (by decide) rfl rfl rfl rfl rfl rfl).1,
   lazy_resolution_terminates_on_cycles.1
      { variables_ := [("a", "unknown")] } "a" ["a"] (by decide)⟩

/-- **C5**: `ExprValidator.field` resolves an identifier atom in priority
order — boolean literal, then variable scope (returning the stored, possibly
lazily-resolved-later type), then Field Catalog, and otherwise appends
exactly one unknown-field diagnostic and yields type `unknown`. -/
theorem field_reference_resolution_priority :
    ∀ (st : ExprValidatorState) (name : String),
      (name ∈ boolLits →
        ExprValidator.field st name =
          ({ st with errors := st.errors ++
              (if containsChinese name then
                ["字段名 '" ++ name ++ "' 包含中文字符，不支持"] else []) },
            .vdict "boolean" name "boolean")) ∧
      (∀ t, name ∉ boolLits → st.variables_.lookup name = some t →
        ExprValidator.field st name =
          ({ st with errors := st.errors ++
              (if containsChinese name then
                ["字段名 '" ++ name ++ "' 包含中文字符，不支持"] else []) },
            .vdict "variable" name t)) ∧
      (name ∉ boolLits → st.variables_.lookup name = none →
        name ∈ st.valid_field_names →
        ExprValidator.field st name =
          ({ st with errors := st.errors ++
              (if containsChinese name then
                ["字段名 '" ++ name ++ "' 包含中文字符，不支持"] else []) },
            .vdict "field" name "field")) ∧
      (name ∉ boolLits → st.variables_.lookup name = none →
        name ∉ st.valid_field_names →
        ExprValidator.field st name =
          ({ st with errors := (st.errors ++
              (if containsChinese name then
                ["字段名 '" ++ name ++ "' 包含中文字符，不支持"] else [])) ++
              ["未知字段: " ++ name] },
            .vdict "field" name "unknown")) := by
  intro st name
  refine ⟨fun hb => ?_, fun t hb hv => ?_, fun hb hv hf => ?_, fun hb hv hf => ?_⟩
  · simp [ExprValidator.field, hb]
  · simp [ExprValidator.field, hb, hv]
  · simp [ExprValidator.field, hb, hv, hf]
  · simp [ExprValidator.field, hb, hv, hf]

/-- Witness for C5: the four priority branches at concrete inputs over the
catalog `{close}` and scope `{price ↦ number}`. -/
theorem field_reference_resolution_witness :
    ExprValidator.field
        ({ valid_field_names := ["close"], variables_ := [("price", "number")] } :
          ExprValidatorState) "True" =
      ({ ({ valid_field_names := ["close"], variables_ := [("price", "number")] } :
          ExprValidatorState) with errors := [] ++
          (if containsChinese "True" then
            ["字段名 '" ++ "True" ++ "' 包含中文字符，不支持"] else []) },
        .vdict "boolean" "True" "boolean") ∧
    ExprValidator.field
        ({ valid_field_names := ["close"], variables_ := [("price", "number")] } :
          ExprValidatorState) "price" =
      ({ ({ valid_field_names := ["close"], variables_ := [("price", "number")] } :
          ExprValidatorState) with errors := [] ++
          (if containsChinese "price" then
            ["字段名 '" ++ "price" ++ "' 包含中文字符，不支持"] else []) },
        .vdict "variable" "price" "number") ∧
    ExprValidator.field
        ({ valid_field_names := ["close"], variables_ := [("price", "number")] } :
          ExprValidatorState) "close" =
      ({ ({ valid_field_names := ["close"], variables_ := [("price", "number")] } :
          ExprValidatorState) with errors := [] ++
          (if containsChinese "close" then
            ["字段名 '" ++ "close" ++ "' 包含中文字符，不支持"] else []) },
        .vdict "field" "close" "field") ∧
    ExprValidator.field
        ({ valid_field_names := ["close"], variables_ := [("price", "number")] } :
          ExprValidatorState) "foo" =
      ({ ({ valid_field_names := ["close"], variables_ := [("price", "number")] } :
          ExprValidatorState) with errors := ([] ++
          (if containsChinese "foo" then
            ["字段名 '" ++ "foo" ++ "' 包含中文字符，不支持"] else [])) ++
          ["未知字段: " ++ "foo"] },
        .vdict "field" "foo" "unknown") :=
  ⟨(field_reference_resolution_priority _ "True").1 (by decide),
   (field_reference_resolution_priority _ "price").2.1 "number" (by decide) rfl,
   (field_reference_resolution_priority _ "close").2.2.1 (by decide) rfl (by decide),
   (field_reference_resolution_priority _ "foo").2.2.2 (by decide) rfl (by decide)⟩

/-- **C6**: for a function-call node whose operator is absent from the
Operator Catalog, `ExprValidator.function` appends exactly the
unknown-operator diagnostic naming the operator (no arity or argument-type
diagnostics), and the call's node carries result type `unknown`, which is
what `_get_node_type` then reports for it. -/
theorem unknown_operator_degrades_to_unknown :
    ∀ (st : ExprValidatorState) (name : String) (rest : List Node),
      st.valid_ops.lookup name = none →
      ExprValidator.function st name rest =
        ({ st with errors := (st.errors ++
            (if containsChinese name then
              ["操作符名 '" ++ name ++ "' 包含中文字符，不支持"] else [])) ++
            ["未知操作符: " ++ name] },
          .vdict "function_call" name "unknown") ∧
      ExprValidator.get_node_type st (.vdict "function_call" name "unknown") =
        "unknown" := by
  intro st name rest h
  constructor
  · simp [ExprValidator.function, h]
  · simp [ExprValidator.get_node_type, ExprValidator.getNodeTypeAux_fcall]

/-- Witness for C6 at a concrete call `unknown_function(close)` against an
operator table that only knows `rank`. -/
theorem unknown_operator_witness :
    ExprValidator.function
        ({ valid_ops := [("rank", { min_args := 1 })] } : ExprValidatorState)
        "unknown_function" [Node.tree "args" [Node.token "CNAME" "close"]] =
      ({ ({ valid_ops := [("rank", { min_args := 1 })] } : ExprValidatorState) with
          errors := ([] ++
            (if containsChinese "unknown_function" then
              ["操作符名 '" ++ "unknown_function" ++ "' 包含中文字符，不支持"] else [])) ++
            ["未知操作符: " ++ "unknown_function"] },
        .vdict "function_call" "unknown_function" "unknown") ∧
    ExprValidator.get_node_type
        ({ valid_ops := [("rank", { min_args := 1 })] } : ExprValidatorState)
        (.vdict "function_call" "unknown_function" "unknown") = "unknown" :=
  unknown_operator_degrades_to_unknown _ "unknown_function"
    [Node.tree "args" [Node.token "CNAME" "close"]] rfl

theorem anyCompatible_eq_any (l : List TExpected) (actual : String) :
    anyCompatible l actual = l.any (fun e => is_type_compatible e actual) := by
  induction l with
  | nil => rfl
  | cons e es ih => simp [anyCompatible, ih]

/-- **C3**: type compatibility is permissive for an expected `boolean`
(accepting `boolean`, `expr`, `field`, `number` and nothing else), strict for
an expected `field` (accepting exactly `field`), and a list expected type
accepts the actual kind iff some member does. -/
theorem boolean_permissive_field_strict :
    (∀ actual : String, is_type_compatible (.s "boolean") actual =
      (actual == "boolean" || actual == "expr" || actual == "field" ||
        actual == "number")) ∧
    (∀ actual : String, is_type_compatible (.s "field") actual =
      (actual == "field")) ∧
    (∀ (l : List TExpected) (actual : String),
      is_type_compatible (.list l) actual =
        l.any (fun e => is_type_compatible e actual)) := by
  refine ⟨fun actual => ?_, fun actual => ?_, fun l actual => anyCompatible_eq_any l actual⟩
  · by_cases h1 : actual = "boolean"
    · subst h1; decide
    by_cases h2 : actual = "expr"
    · subst h2; decide
    by_cases h3 : actual = "field"
    · subst h3; decide
    by_cases h4 : actual = "number"
    · subst h4; decide
    have h1' : ("boolean" == actual) = false := by
      simp only [beq_eq_false_iff_ne, ne_eq]
      exact fun h => h1 h.symm
    have h2' : (actual == "expr") = false := by
      simp only [beq_eq_false_iff_ne, ne_eq]
      exact h2
    have h3' : (actual == "field") = false := by
      simp only [beq_eq_false_iff_ne, ne_eq]
      exact h3
    have h4' : (actual == "number") = false := by
      simp only [beq_eq_false_iff_ne, ne_eq]
      exact h4
    have h1'' : (actual == "boolean") = false := by
      simp only [beq_eq_false_iff_ne, ne_eq]
      exact h1
    simp [is_type_compatible, h1', h2', h3', h4', h1'']
  · by_cases h1 : actual = "field"
    · subst h1; decide
    have h1' : ("field" == actual) = false := by
      simp only [beq_eq_false_iff_ne, ne_eq]
      exact fun h => h1 h.symm
    have h1'' : (actual == "field") = false := by
      simp only [beq_eq_false_iff_ne, ne_eq]
      exact h1
    simp [is_type_compatible, h1', h1'']

/-- Counterexample for C4: the compatibility check rejects an actual `field`
and an actual `number` for an expected `field_or_number` — the function has
no `field_or_number` branch, so the claimed acceptances are false. -/
theorem field_or_number_rejects_field_and_number :
    is_type_compatible (.s "field_or_number") "field" = false ∧
    is_type_compatible (.s "field_or_number") "number" = false := by
  decide

/-- **C4 (amended)**: for an expected kind of `field_or_number` the
compatibility check accepts only an identical actual `field_or_number`;
`field`, `number` and every other kind are rejected. -/
theorem field_or_number_accepts_only_itself :
    ∀ actual : String, is_type_compatible (.s "field_or_number") actual =
      (actual == "field_or_number") := by
  intro actual
  by_cases h1 : actual = "field_or_number"
  · subst h1; decide
  have h1' : ("field_or_number" == actual) = false := by
    simp only [beq_eq_false_iff_ne, ne_eq]
    exact fun h => h1 h.symm
  have h1'' : (actual == "field_or_number") = false := by
    simp only [beq_eq_false_iff_ne, ne_eq]
    exact h1
  simp [is_type_compatible, h1', h1'']

namespace BusinessRuleValidator

theorem assignLineErrors_of_le_one {i : Nat} {l : List Char}
    (h : (statementsOf (trimC l)).length ≤ 1) : assignLineErrors i l = [] := by
  unfold assignLineErrors
  dsimp only
  by_cases hb : trimC l = [] ∨ (trimC l).head? = some '#'
  · rw [if_pos hb]
  · rw [if_neg hb, if_neg (by omega)]

theorem assignRulesAux_nil {ls : List (List Char)} (start : Nat)
    (h : ∀ l ∈ ls, ∀ i, assignLineErrors i l = []) :
    assignRulesAux start ls = [] := by
  induction ls generalizing start with
  | nil => rfl
  | cons l0 rest ih =>
    simp [assignRulesAux, h l0 (by simp) start,
      ih (start + 1) (fun l hl => h l (by simp [hl]))]

theorem mem_assignRulesAux {e : ValidationError} :
    ∀ (ls : List (List Char)) (start i : Nat) (l : List Char),
      ls.get? i = some l → e ∈ assignLineErrors (start + i) l →
      e ∈ assignRulesAux start ls := by
  intro ls
  induction ls with
  | nil => intro start i l h _; simp at h
  | cons l0 rest ih =>
    intro start i l h hm
    cases i with
    | zero =>
      simp at h
      subst h
      exact List.mem_append_left _ (by simpa using hm)
    | succ j =>
      rw [List.get?_cons_succ] at h
      have hsh : start + (j + 1) = (start + 1) + j := by omega
      rw [hsh] at hm
      exact List.mem_append_right _ (ih (start + 1) j l h hm)

theorem idxOf_some_contains {c : Char} {l : List Char} {k : Nat}
    (h : idxOf c l = some k) : l.contains c = true := by
  induction l generalizing k with
  | nil => simp [idxOf] at h
  | cons x xs ih =>
    rw [idxOf] at h
    by_cases hx : x = c
    · simp [List.contains_cons, hx]
    · rw [if_neg hx] at h
      rcases Option.map_eq_some'.1 h with ⟨k', hk', _⟩
      have hxs := ih hk'
      simp [List.contains_cons] at hxs ⊢
      exact Or.inr hxs

theorem assignLineErrors_positive {i : Nat} {rawLine : List Char}
    {sts : List (List Char)} {last : List Char} {k : Nat}
    (h0 : trimC rawLine ≠ []) (h0' : (trimC rawLine).head? ≠ some '#')
    (hsts : statementsOf (trimC rawLine) = sts) (hlen : sts.length > 1)
    (hlast : sts.getLast? = some last) (hk : idxOf '=' last = some k)
    (hkpos : k > 0) (hpar : (trimC (last.take k)).contains '(' = false)
    (hid : isIdentC (trimC (last.take k)) = true) :
    assignLineErrors i rawLine = [assignmentError i (trimC rawLine) last] := by
  unfold assignLineErrors
  dsimp only
  rw [if_neg (by simp [h0, h0']), hsts, if_pos hlen, hlast]
  dsimp only
  rw [if_pos (idxOf_some_contains hk), hk]
  simp only [Option.getD_some]
  rw [if_pos hkpos, if_neg (by simpa using hpar), if_pos hid]

theorem assignLineErrors_paren {i : Nat} {rawLine last : List Char} {k : Nat}
    (hlast : (statementsOf (trimC rawLine)).getLast? = some last)
    (hk : idxOf '=' last = some k)
    (hpar : (trimC (last.take k)).contains '(' = true) :
    assignLineErrors i rawLine = [] := by
  unfold assignLineErrors
  dsimp only
  by_cases hb : trimC rawLine = [] ∨ (trimC rawLine).head? = some '#'
  · rw [if_pos hb]
  · rw [if_neg hb]
    by_cases hlen : (statementsOf (trimC rawLine)).length > 1
    · rw [if_pos hlen, hlast]
      dsimp only
      rw [if_pos (idxOf_some_contains hk), hk]
      simp only [Option.getD_some]
      by_cases hkpos : k > 0
      · rw [if_pos hkpos, if_pos hpar]
      · rw [if_neg hkpos]
    · rw [if_neg hlen]

end BusinessRuleValidator

/-- Counterexample for C2: a script that is a single assignment statement
passes the business-rule validator with no diagnostic, although the claim
says it is rejected. -/
theorem single_assignment_script_not_rejected :
    (BusinessRuleValidator.validate {} "a = 1").2 = [] := rfl

/-- **C2 (amended)**: the trailing-assignment rule is per-line and fires only
on lines with at least two semicolon-separated statements: (1) if every line
splits into at most one statement, only the structure checks remain (so a
lone assignment passes); (2) a line whose statement list has length `> 1`
and whose last statement has an `=` at a positive position with no `(` and a
valid identifier before it contributes its diagnostic; (3) an `=` whose
stripped left-hand side contains an open parenthesis (a keyword argument
inside a function call) never triggers the rule — such a line contributes no
diagnostic at all; (4) a script each of whose lines is exempt (at most one
statement, or keyword-argument `=`) yields only the structure checks;
(5) an empty (or whitespace-only) script is rejected with the empty-script
diagnostic; (6) a script whose every line is blank or comment-only is
rejected with the no-valid-expression-line diagnostic. -/
theorem trailing_assignment_rule_per_line :
    (∀ (s : BaseValidatorState) (expr : String),
      (∀ l ∈ pySplitLines expr.data,
        (BusinessRuleValidator.statementsOf (trimC l)).length ≤ 1) →
      (BusinessRuleValidator.validate s expr).2 =
        BusinessRuleValidator.check_expression_structure expr.data) ∧
    (∀ (s : BaseValidatorState) (expr : String) (i : Nat) (rawLine : List Char)
        (sts : List (List Char)) (last : List Char) (k : Nat),
      (pySplitLines expr.data).get? i = some rawLine →
      trimC rawLine ≠ [] →
      (trimC rawLine).head? ≠ some '#' →
      BusinessRuleValidator.statementsOf (trimC rawLine) = sts →
      sts.length > 1 →
      sts.getLast? = some last →
      idxOf '=' last = some k →
      k > 0 →
      (trimC (last.take k)).contains '(' = false →
      isIdentC (trimC (last.take k)) = true →
      BusinessRuleValidator.assignmentError i (trimC rawLine) last ∈
        (BusinessRuleValidator.validate s expr).2) ∧
    (∀ (i : Nat) (rawLine last : List Char) (k : Nat),
      (BusinessRuleValidator.statementsOf (trimC rawLine)).getLast? =
        some last →
      idxOf '=' last = some k →
      (trimC (last.take k)).contains '(' = true →
      BusinessRuleValidator.assignLineErrors i rawLine = []) ∧
    (∀ (s : BaseValidatorState) (expr : String),
      (∀ l ∈ pySplitLines expr.data,
        (BusinessRuleValidator.statementsOf (trimC l)).length ≤ 1 ∨
        ∃ last k,
          (BusinessRuleValidator.statementsOf (trimC l)).getLast? =
            some last ∧
          idxOf '=' last = some k ∧
          (trimC (last.take k)).contains '(' = true) →
      (BusinessRuleValidator.validate s expr).2 =
        BusinessRuleValidator.check_expression_structure expr.data) ∧
    (∀ (s : BaseValidatorState) (expr : String), trimC expr.data = [] →
      ({ message := "表达式不能为空", suggestion := some "请提供有效的表达式" } :
        ValidationError) ∈ (BusinessRuleValidator.validate s expr).2) ∧
    (∀ (s : BaseValidatorState) (expr : String),
      (∀ l ∈ pySplitLines expr.data,
        trimC l = [] ∨ (trimC l).head? = some '#') →
      ({ message := "没有找到有效的表达式行",
         suggestion := some "请提供至少一行有效的表达式" } :
        ValidationError) ∈ (BusinessRuleValidator.validate s expr).2) := by
  refine ⟨?_, ?_, ?_, ?_, ?_, ?_⟩
  · intro s expr h
    simp [BusinessRuleValidator.validate,
      BusinessRuleValidator.check_assignment_rules,
      BusinessRuleValidator.assignRulesAux_nil 0
        (fun l hl _ => BusinessRuleValidator.assignLineErrors_of_le_one (h l hl))]
  · intro s expr i rawLine sts last k hget h0 h0' hsts hlen hlast hk hkpos hpar hid
    have hline : BusinessRuleValidator.assignmentError i (trimC rawLine) last ∈
        BusinessRuleValidator.assignLineErrors (0 + i) rawLine := by
      rw [Nat.zero_add,
        BusinessRuleValidator.assignLineErrors_positive h0 h0' hsts hlen hlast
          hk hkpos hpar hid]
      simp
    have hmem := BusinessRuleValidator.mem_assignRulesAux
      (pySplitLines expr.data) 0 i rawLine hget hline
    simp only [BusinessRuleValidator.validate]
    exact List.mem_append_left _ hmem
  · intro i rawLine last k hlast hk hpar
    exact BusinessRuleValidator.assignLineErrors_paren hlast hk hpar
  · intro s expr h
    have hn : ∀ l ∈ pySplitLines expr.data, ∀ i,
        BusinessRuleValidator.assignLineErrors i l = [] := by
      intro l hl i
      rcases h l hl with h1 | ⟨last, k, h1, h2, h3⟩
      · exact BusinessRuleValidator.assignLineErrors_of_le_one h1
      · exact BusinessRuleValidator.assignLineErrors_paren h1 h2 h3
    simp [BusinessRuleValidator.validate,
      BusinessRuleValidator.check_assignment_rules,
      BusinessRuleValidator.assignRulesAux_nil 0 hn]
  · intro s expr h
    simp [BusinessRuleValidator.validate,
      BusinessRuleValidator.check_expression_structure, h]
  · intro s expr h
    have hfil : (((pySplitLines expr.data).map trimC).filter
        (fun l => l ≠ [] ∧ l.head? ≠ some '#')) = [] := by
      rw [List.filter_eq_nil]
      intro t ht
      rcases List.mem_map.1 ht with ⟨l, hl, rfl⟩
      rcases h l hl with h1 | h1 <;> simp [h1]
    simp only [BusinessRuleValidator.validate]
    refine List.mem_append_right _ ?_
    unfold BusinessRuleValidator.check_expression_structure
    rw [hfil]
    simp

/-- Witness for C2 (amended): `"a = 1"` yields only structure checks (none of
which fire), `"a = 1; b = 2"` yields the trailing-assignment diagnostic for
its last statement, the line `"f(x=1); g(y=2)"` contributes nothing because
the `=` of its last statement sits after an open parenthesis — so that whole
script passes — and `""` and `"# 注释"` are rejected by the structure
checks. -/
theorem trailing_assignment_rule_witness :
    (BusinessRuleValidator.validate {} "a = 1").2 =
      BusinessRuleValidator.check_expression_structure "a = 1".data ∧
    BusinessRuleValidator.assignmentError 0 (trimC "a = 1; b = 2".data)
        "b = 2".data ∈ (BusinessRuleValidator.validate {} "a = 1; b = 2").2 ∧
    BusinessRuleValidator.assignLineErrors 0 "f(x=1); g(y=2)".data = [] ∧
    (BusinessRuleValidator.validate {} "f(x=1); g(y=2)").2 =
      BusinessRuleValidator.check_expression_structure "f(x=1); g(y=2)".data ∧
    ({ message := "表达式不能为空", suggestion := some "请提供有效的表达式" } :
      ValidationError) ∈ (BusinessRuleValidator.validate {} "").2 ∧
    ({ message := "没有找到有效的表达式行",
       suggestion := some "请提供至少一行有效的表达式" } :
      ValidationError) ∈ (BusinessRuleValidator.validate {} "# 注释").2 :=
  ⟨trailing_assignment_rule_per_line.1 {} "a = 1" (by decide),
   trailing_assignment_rule_per_line.2.1 {} "a = 1; b = 2" 0
     "a = 1; b = 2".data
     (BusinessRuleValidator.statementsOf (trimC "a = 1; b = 2".data))
     "b = 2".data 2 rfl (by decide) (by decide) rfl (by decide) (by decide)
     (by decide) (by decide) (by decide) (by decide),
   trailing_assignment_rule_per_line.2.2.1 0 "f(x=1); g(y=2)".data
     "g(y=2)".data 3 (by decide) (by decide) (by decide),
   trailing_assignment_rule_per_line.2.2.2.1 {} "f(x=1); g(y=2)"
     (by
       intro l hl
       have he : pySplitLines ("f(x=1); g(y=2)".data) =
           ["f(x=1); g(y=2)".data] := by decide
       rw [he, List.mem_singleton] at hl
       subst hl
       exact Or.inr ⟨"g(y=2)".data, 3, by decide, by decide, by decide⟩),
   trailing_assignment_rule_per_line.2.2.2.2.1 {} "" rfl,
   trailing_assignment_rule_per_line.2.2.2.2.2 {} "# 注释" (by decide)⟩

theorem str_append_left_cancel {s a b : String} (h : s ++ a = s ++ b) :
    a = b := by
  have h2 := congrArg String.data h
  rw [String.data_append, String.data_append] at h2
  have h3 := List.append_cancel_left h2
  cases a; cases b
  exact congrArg String.mk h3

/-- **C10**: the packaged data-field pass never reports an identifier as an
unknown data field when, anywhere in the text, the identifier is followed (up
to whitespace) by `=`, or is followed by `(`, or is a boolean literal in any
letter case — the `_is_variable_name` / `_is_function_call` filters remove it
from the extracted field references first. -/
theorem assigned_name_escapes_field_check :
    ∀ (validOpsKeys valid_fields : List String) (s : BaseValidatorState)
      (name expr : String),
      isIdentC name.data = true →
      (searchFollowedBy true name.data '=' expr.data = true ∨
       searchFollowedBy true name.data '(' expr.data = true ∨
       name.toLower = "true" ∨ name.toLower = "false") →
      ("无效数据字段: " ++ name) ∉
        ((DataFieldValidator.validate validOpsKeys valid_fields s expr).2.map
          (fun e => e.message)) := by
  intro ops flds s name expr _hid hcond hmem
  rcases List.mem_map.1 hmem with ⟨err, herr, hmsg⟩
  simp only [DataFieldValidator.validate] at herr
  rcases List.mem_map.1 herr with ⟨f, hf, rfl⟩
  have hfn : f = name := str_append_left_cancel hmsg
  subst hfn
  have hx := (List.mem_filter.1 hf).1
  simp only [DataFieldValidator.extract_field_references] at hx
  have hx2 := List.mem_dedup.1 hx
  have hp := List.of_mem_filter hx2
  simp only [Bool.and_eq_true, Bool.not_eq_true'] at hp
  obtain ⟨⟨hfc, _hop⟩, hvar⟩ := hp
  rcases hcond with h | h | h | h
  · have hv : DataFieldValidator.is_variable_name f expr = true := by
      simp [DataFieldValidator.is_variable_name, h]
    rw [hv] at hvar
    cases hvar
  · have hc : DataFieldValidator.is_function_call f expr = true := by
      simp [DataFieldValidator.is_function_call, h]
    rw [hc] at hfc
    cases hfc
  · have hv : DataFieldValidator.is_variable_name f expr = true := by
      simp [DataFieldValidator.is_variable_name, h]
    rw [hv] at hvar
    cases hvar
  · have hv : DataFieldValidator.is_variable_name f expr = true := by
      simp [DataFieldValidator.is_variable_name, h]
    rw [hv] at hvar
    cases hvar

/-- Witness for C10: `close` is used as an assignment target in
`"close = 1"`, so its unknown-field message does not appear even with empty
catalogs. -/
theorem assigned_name_escapes_field_check_witness :
    ("无效数据字段: " ++ "close") ∉
      ((DataFieldValidator.validate [] [] {} "close = 1").2.map
        (fun e => e.message)) :=
  assigned_name_escapes_field_check [] [] {} "close" "close = 1" (by decide)
    (Or.inl (by decide))

namespace ExpressionValidator

theorem renderError_mem_of_mem_all_errors {stg : OrchStages}
    {v : ExpressionValidatorState} {expr : String} {err : ValidationError}
    (h : err ∈ all_errors stg v expr) :
    renderError err ∈ (validate stg v expr).2.2 := by
  rw [validate_eq]
  rw [if_pos (List.ne_nil_of_mem h)]
  exact List.mem_map_of_mem _ h

theorem fst_catalogs (stg : OrchStages) (v : ExpressionValidatorState)
    (expr : String) :
    (validate stg v expr).1.valid_field_names = v.valid_field_names ∧
    (validate stg v expr).1.valid_ops_names = v.valid_ops_names := by
  unfold validate
  constructor <;> (dsimp only; split <;> rfl)

theorem snd_catalog_determined {stg : OrchStages}
    {v w : ExpressionValidatorState} {expr : String}
    (hf : v.valid_field_names = w.valid_field_names)
    (ho : v.valid_ops_names = w.valid_ops_names) :
    (validate stg v expr).2 = (validate stg w expr).2 := by
  have hall : all_errors stg v expr = all_errors stg w expr := by
    unfold all_errors
    rw [hf, ho]
    rfl
  rw [validate_eq, validate_eq, hall]

end ExpressionValidator

/-- **C1**: for every input and every (abstracted) stage behaviour, the
orchestrator's verdict is `true` exactly when the returned diagnostic list is
empty: a failed validation carries at least one diagnostic, a passed one
carries none. -/
theorem is_valid_iff_no_diagnostics :
    ∀ (stg : OrchStages) (v : ExpressionValidatorState) (expr : String),
      (ExpressionValidator.validate stg v expr).2.1 = true ↔
      (ExpressionValidator.validate stg v expr).2.2 = [] := by
  intro stg v expr
  rw [ExpressionValidator.validate_eq]
  by_cases h : ExpressionValidator.all_errors stg v expr = []
  · simp [h]
  · simp [h]

/-- **C7**: the orchestrator always returns a `(verdict, diagnostics)` pair,
and each stage's findings — including the converted diagnostics of a `lark`
parse failure — appear in the returned list rather than being propagated as
an exception. -/
theorem validator_never_raises :
    ∀ (stg : OrchStages) (v : ExpressionValidatorState) (expr : String),
      (∃ st' verdict diags,
        ExpressionValidator.validate stg v expr = (st', (verdict, diags))) ∧
      (∀ err ∈ (SyntaxValidator.validate stg.parse v.syntax_validator
          (filter_comments expr)).2,
        renderError err ∈ (ExpressionValidator.validate stg v expr).2.2) ∧
      (∀ err ∈ stg.charCompute (filter_comments expr),
        renderError err ∈ (ExpressionValidator.validate stg v expr).2.2) ∧
      (∀ err ∈ stg.opCompute (filter_comments expr),
        renderError err ∈ (ExpressionValidator.validate stg v expr).2.2) ∧
      (∀ err ∈ (DataFieldValidator.validate v.valid_ops_names
          v.valid_field_names v.data_field_validator (filter_comments expr)).2,
        renderError err ∈ (ExpressionValidator.validate stg v expr).2.2) ∧
      (∀ err ∈ (BusinessRuleValidator.validate v.business_validator
          (filter_comments expr)).2,
        renderError err ∈ (ExpressionValidator.validate stg v expr).2.2) := by
  intro stg v expr
  refine ⟨⟨_, _, _, rfl⟩, ?_, ?_, ?_, ?_, ?_⟩ <;>
    intro err h <;>
    apply ExpressionValidator.renderError_mem_of_mem_all_errors <;>
    simp [ExpressionValidator.all_errors, List.mem_append] <;>
    tauto

/-- Witness for C7: with a parser that always fails without position
information, the converted fallback diagnostic is in the returned list. -/
theorem validator_never_raises_witness :
    renderError (SyntaxValidator.fallbackError { msg := "boom" }) ∈
      (ExpressionValidator.validate
        { charCompute := fun _ => [], idCompute := fun _ => [],
          parse := fun _ => Except.error { msg := "boom" },
          opCompute := fun _ => [] }
        { character_validator := {}, syntax_validator := {},
          business_validator := {}, operator_validator := {},
          data_field_validator := {}, valid_field_names := [],
          valid_ops_names := [] } "x").2.2 :=
  (validator_never_raises
    { charCompute := fun _ => [], idCompute := fun _ => [],
      parse := fun _ => Except.error { msg := "boom" },
      opCompute := fun _ => [] }
    { character_validator := {}, syntax_validator := {},
      business_validator := {}, operator_validator := {},
      data_field_validator := {}, valid_field_names := [],
      valid_ops_names := [] } "x").2.1
    (SyntaxValidator.fallbackError { msg := "boom" }) (by decide)

/-- **C9**: validating the same text twice on the same validator instance
yields the same verdict and diagnostics — each sub-validator clears its
per-call state, so the second call (starting from the state left behind by
the first) returns exactly the first call's result. -/
theorem validate_idempotent :
    ∀ (stg : OrchStages) (v : ExpressionValidatorState) (expr : String),
      (ExpressionValidator.validate stg
        ((ExpressionValidator.validate stg v expr).1) expr).2 =
      (ExpressionValidator.validate stg v expr).2 := by
  intro stg v expr
  exact ExpressionValidator.snd_catalog_determined
    (ExpressionValidator.fst_catalogs stg v expr).1
    (ExpressionValidator.fst_catalogs stg v expr).2

end WQB
